import Mathlib

/-!
Shallow embedding of the hyd-departure-flight-tracker server (src/server.js).

The source is a single Express server.  Its core pieces are pure string
helpers (`getAirlineNameFromUrl`, `calculateDelayMinutes`, `parseTimeAndDelay`),
a cheerio-based HTML table extractor (`parseFlights`), and the
`/api/departures` handler that coordinates an in-memory cache with a
puppeteer render of the upstream airport page.

JavaScript string primitives used by the source (`split` with a one-character
separator, `trim`, `toLowerCase`, the global replace of hyphens, `includes`, `Number`
on decimal digit strings, and the global regex match `/([0-9]{1,2}:[0-9]{2})/g`)
are modelled below on `List Char`, structurally recursive so that every
definition evaluates by `decide` / `rfl`.  A JavaScript `NaN` arithmetic result
is modelled as `none : Option Int`.
-/

namespace HydTracker

/-- JS `s.split(c)` for a one-character separator: always returns at least one
piece, `""` splits to `[""]`. -/
def splitOnChar (sep : Char) : List Char → List (List Char)
  | [] => [[]]
  | c :: rest =>
    let r := splitOnChar sep rest
    if c = sep then [] :: r
    else
      match r with
      | [] => [[c]]
      | h :: t => (c :: h) :: t

/-- ASCII whitespace recognised by the model of JS `trim`. -/
def isSpaceChar (c : Char) : Bool :=
  c = ' ' || c = '\t' || c = '\n' || c = '\r'

/-- JS `s.trim()` on the character list. -/
def trimChars (cs : List Char) : List Char :=
  ((cs.dropWhile isSpaceChar).reverse.dropWhile isSpaceChar).reverse

/-- JS `s.trim()`. -/
def trimStr (s : String) : String :=
  ⟨trimChars s.data⟩

/-- ASCII case folding, the fragment of JS `toLowerCase` the source relies on. -/
def lowerChar (c : Char) : Char :=
  if 'A' ≤ c && c ≤ 'Z' then Char.ofNat (c.toNat + 32) else c

/-- JS `s.toLowerCase()` (ASCII fragment). -/
def lowerStr (s : String) : String :=
  ⟨s.data.map lowerChar⟩

/-- Does `needle` occur at the head of `hay`? -/
def startsHere : List Char → List Char → Bool
  | [], _ => true
  | _ :: _, [] => false
  | a :: as, b :: bs => a = b && startsHere as bs

/-- JS `hay.includes(needle)`: does `needle` occur anywhere in `hay`? -/
def appearsIn (needle : List Char) : List Char → Bool
  | [] => startsHere needle []
  | c :: rest => startsHere needle (c :: rest) || appearsIn needle rest

/-- JS `Number(s)` restricted to non-empty decimal digit strings (the only
inputs the source ever produces for it); any other input is a `NaN`, modelled
as `none`. -/
def digitsToNat? (cs : List Char) : Option Nat :=
  if cs ≠ [] && cs.all Char.isDigit then
    some (cs.foldl (fun n c => n * 10 + (c.toNat - 48)) 0)
  else none

/-- The destructuring parse in `calculateDelayMinutes`:
`const [h, m] = s.split(':')` followed by `Number` on both pieces and
`h * 60 + m`.  A missing piece or non-numeric piece gives JS `NaN`, here
`none`. -/
def timeToMinutes? (s : String) : Option Int :=
  match splitOnChar ':' s.data with
  | h :: m :: _ =>
    match digitsToNat? h, digitsToNat? m with
    | some hh, some mm => some ((hh : Int) * 60 + (mm : Int))
    | _, _ => none
  | _ => none

/-- src/server.js `calculateDelayMinutes(std, etd)` (lines 31-39).
Identical strings short-circuit to `0` before any parsing; otherwise both are
converted to minutes-since-midnight, an estimated time earlier than scheduled
by more than 12 hours is pushed past midnight, and the difference is clamped
at zero.  `none` models the JS `NaN` result on unparsable input, which
propagates through the comparison and `Math.max`. -/
def calculateDelayMinutes (std etd : String) : Option Int :=
  if std = etd then some 0
  else
    match timeToMinutes? std, timeToMinutes? etd with
    | some stdMinutes, some etdMinutes0 =>
      let etdMinutes :=
        if etdMinutes0 < stdMinutes - 12 * 60 then etdMinutes0 + 24 * 60
        else etdMinutes0
      some (max 0 (etdMinutes - stdMinutes))
    | _, _ => none

/-- One attempt of the regex `/[0-9]{1,2}:[0-9]{2}/` at the head of the
input: greedy two-digit hour first, then the one-digit backtrack, as the JS
engine does.  Returns the matched characters and the remaining input. -/
def matchClockAt (cs : List Char) : Option (List Char × List Char) :=
  match cs with
  | a :: b :: c :: d :: e :: rest =>
    if a.isDigit && b.isDigit && c = ':' && d.isDigit && e.isDigit then
      some ([a, b, c, d, e], rest)
    else if a.isDigit && b = ':' && c.isDigit && d.isDigit then
      some ([a, b, c, d], e :: rest)
    else none
  | [a, b, c, d] =>
    if a.isDigit && b = ':' && c.isDigit && d.isDigit then
      some ([a, b, c, d], [])
    else none
  | _ => none

/-- Fuel-indexed scan for `rawText.match(/([0-9]{1,2}:[0-9]{2})/g)`: at each
position try the pattern; on a match emit it and resume after it, otherwise
advance one character.  The fuel only bounds the recursion (each step consumes
at least one character), so `fuel = cs.length` never runs out. -/
def scanClocksAux : Nat → List Char → List String
  | _, [] => []
  | 0, _ :: _ => []
  | fuel + 1, c :: rest =>
    match matchClockAt (c :: rest) with
    | some (m, rest') => String.mk m :: scanClocksAux fuel rest'
    | none => scanClocksAux fuel rest

/-- All matches of `/([0-9]{1,2}:[0-9]{2})/g` in order of appearance. -/
def scanClocks (cs : List Char) : List String :=
  scanClocksAux cs.length cs

/-- The triple produced by src/server.js `parseTimeAndDelay` (lines 41-52).
`delayMins` is `Option Int` because the JS number could in principle be `NaN`
(it never is on this code path). -/
structure TimeDelay where
  std : String
  etd : String
  delayMins : Option Int
deriving Repr, DecidableEq

/-- src/server.js `parseTimeAndDelay(rawText)` (lines 41-52): zero matches
give the sentinel pair with delay 0; one match is used for both times; with
two or more matches the first two are used and the rest ignored. -/
def parseTimeAndDelay (rawText : String) : TimeDelay :=
  match scanClocks rawText.data with
  | [] => ⟨"--:--", "--:--", some 0⟩
  | [t] => ⟨t, t, calculateDelayMinutes t t⟩
  | t1 :: t2 :: _ => ⟨t1, t2, calculateDelayMinutes t1 t2⟩

/-- src/server.js `getAirlineNameFromUrl(url)` (lines 19-29): falsy input
(absent or `""`) gives the sentinel `"Other"`; otherwise the last `/` segment,
cut at the first `.`, cut at the first `_`, hyphens replaced by spaces, with
the sentinel again if the result is empty.  The source's `try/catch` is dead
code: none of the string operations can throw. -/
def getAirlineNameFromUrl (url : Option String) : String :=
  match url with
  | none => "Other"
  | some u =>
    if u = "" then "Other"
    else
      let lastSeg := (splitOnChar '/' u.data).getLastD []
      let filename := ((splitOnChar '.' lastSeg).headD [])
      let parts := splitOnChar '_' filename
      let name : String := ⟨(parts.headD []).map fun c => if c = '-' then ' ' else c⟩
      if name = "" then "Other" else name

/-!
The DOM side of `parseFlights` (src/server.js lines 54-94).  cheerio's
`load`, `$('tr')`, `.find('td')`, `.find('img').attr('src')` and `.text()`
are the external HTML library; the rendered page is modelled as the
traversable tree cheerio produces: a document is its list of `tr` elements in
document order, a row its list of `td` cells, a cell its text content and its
embedded `img` elements (each with an optional `src` attribute).
-/

/-- An `img` element inside a cell; `src` is `none` when the attribute is
absent (cheerio `attr` then returns `undefined`). -/
structure Img where
  src : Option String
deriving Repr, DecidableEq

/-- A `td` cell: its text content and its embedded `img` elements in order. -/
structure Cell where
  text : String
  imgs : List Img
deriving Repr, DecidableEq

/-- A `tr` row: its `td` cells in order. -/
structure Row where
  cells : List Cell
deriving Repr, DecidableEq

/-- A rendered document: its `tr` elements in document order. -/
structure Document where
  rows : List Row
deriving Repr, DecidableEq

/-- Out-of-range cell access placeholder (never reached: the source indexes
cells 0-6 only after checking `cols.length >= 7`). -/
def cellDefault : Cell := ⟨"", []⟩

/-- One flight record as pushed by src/server.js lines 80-90.  `airlineImg`
is `none` when the row's first cell has no `img` or no `src` attribute;
`delayMins : Option Int` with `none` for a JS `NaN` (never produced here). -/
structure FlightRecord where
  airlineImg : Option String
  airlineName : String
  flightNo : String
  dest : String
  std : String
  etd : String
  delayMins : Option Int
  gate : String
  status : String
deriving Repr, DecidableEq

/-- The body of the `$('tr').each` callback (src/server.js lines 58-91):
`none` when the row is skipped (fewer than 7 cells, or the destination cell's
lower-cased trimmed text contains "origin"), otherwise the record built from
cells 0, 1, 2, 4, 5 and 6. -/
def rowToRecord? (row : Row) : Option FlightRecord :=
  let cols := row.cells
  if cols.length < 7 then none
  else
    let destText := trimStr (cols.getD 2 cellDefault).text
    if appearsIn "origin".data (lowerStr destText).data then none
    else
      let airlineImg := ((cols.getD 0 cellDefault).imgs.head?).bind Img.src
      let flightNo := trimStr (cols.getD 1 cellDefault).text
      let timeRaw := trimStr (cols.getD 4 cellDefault).text
      let gate := trimStr (cols.getD 5 cellDefault).text
      let status := trimStr (cols.getD 6 cellDefault).text
      let td := parseTimeAndDelay timeRaw
      let airlineName := getAirlineNameFromUrl airlineImg
      some
        { airlineImg := airlineImg
          airlineName := airlineName
          flightNo := flightNo
          dest := destText
          std := td.std
          etd := td.etd
          delayMins := td.delayMins
          gate := gate
          status := status }

/-- src/server.js `parseFlights(html)` (lines 54-94): iterate the rows in
document order, skipping disqualified ones and pushing a record for each
qualifying one. -/
def parseFlights (doc : Document) : List FlightRecord :=
  doc.rows.filterMap rowToRecord?

/-!
The `/api/departures` handler (src/server.js lines 118-173) and the
in-memory cache (lines 11-15).  The handler's puppeteer session and the
upstream page are the external renderer collaborator; one request is modelled
as a function of the cache state, the request time `now` (`Date.now()`), and
the outcome the renderer produced for this request.  The second `Date.now()`
on the success path (line 154) is modelled as the same instant `now`.
cheerio's parse of the fetched page body is the `Document` carried by a
successful outcome.
-/

/-- The cache object of src/server.js lines 11-14: `data` starts as `null`
(`none`), `lastFetch` starts at `0`. -/
structure Cache where
  data : Option (List FlightRecord)
  lastFetch : Int
deriving Repr, DecidableEq

/-- `CACHE_DURATION = 15 * 60 * 1000` (line 15). -/
def CACHE_DURATION : Int := 15 * 60 * 1000

/-- Line 120: `(now - cache.lastFetch) < CACHE_DURATION`, the time half of
the freshness guard, parameterised by the window. -/
def isCacheFreshTime (cache : Cache) (now windowMs : Int) : Bool :=
  now - cache.lastFetch < windowMs

/-- Line 122's guard `cache.data && isCacheFresh`: records present and young
enough.  A JS array — even an empty one — is truthy, so presence is exactly
`isSome`. -/
def cacheServable (cache : Cache) (now windowMs : Int) : Bool :=
  cache.data.isSome && isCacheFreshTime cache now windowMs

/-- Lines 153-154: whole-entry replacement `cache.data = flights;
cache.lastFetch = now`. -/
def cacheSet (records : List FlightRecord) (now : Int) : Cache :=
  ⟨some records, now⟩

/-- The `500` payload of line 166: `{ error: ..., details: error.message }`. -/
structure UpstreamError where
  error : String
  details : String
deriving Repr, DecidableEq

/-- What the renderer collaborator did for this request: a rendered page
whose parse tree is `doc` with `response.ok()` true; a reachable page with a
non-success status (line 145 then throws); or a thrown render/navigation/
content error with message `msg`. -/
inductive RenderOutcome where
  | ok (doc : Document)
  | badStatus (status : Int)
  | err (msg : String)
deriving Repr, DecidableEq

instance {ε α : Type} [DecidableEq ε] [DecidableEq α] : DecidableEq (Except ε α) :=
  fun x y =>
    match x, y with
    | .ok a, .ok b =>
      if h : a = b then .isTrue (congrArg Except.ok h)
      else .isFalse fun he => h (Except.ok.inj he)
    | .error a, .error b =>
      if h : a = b then .isTrue (congrArg Except.error h)
      else .isFalse fun he => h (Except.error.inj he)
    | .ok _, .error _ => .isFalse fun he => Except.noConfusion he
    | .error _, .ok _ => .isFalse fun he => Except.noConfusion he

/-- The observable effect of one `/api/departures` request: the JSON body
sent (a flight list on every 200, an `UpstreamError` on the 500 path), the
cache state after the request, and whether the renderer was invoked at all. -/
structure RequestResult where
  response : Except UpstreamError (List FlightRecord)
  cache : Cache
  rendererInvoked : Bool
deriving Repr, DecidableEq

/-- The catch branch of lines 159-167: serve stale data when `cache.data` is
truthy, else respond 500 with the failure's message as `details`. -/
def staleFallback (cache : Cache) (msg : String) : RequestResult :=
  match cache.data with
  | some d => ⟨.ok d, cache, true⟩
  | none => ⟨.error ⟨"Failed to fetch flight data", msg⟩, cache, true⟩

/-- The message of the error thrown on line 146 for a non-success status. -/
def badStatusMessage (status : Int) : String :=
  "Airport server responded with " ++ toString status

/-- One request through the `/api/departures` handler (lines 118-173):
serve from cache when present and fresh; otherwise render, and on success
parse, overwrite the cache and serve the new list, while any failure goes
through the stale-fallback catch branch. -/
def getDepartures (cache : Cache) (now : Int) (outcome : RenderOutcome) :
    RequestResult :=
  if cacheServable cache now CACHE_DURATION then
    ⟨.ok (cache.data.getD []), cache, false⟩
  else
    match outcome with
    | .ok doc =>
      let flights := parseFlights doc
      ⟨.ok flights, cacheSet flights now, true⟩
    | .badStatus s => staleFallback cache (badStatusMessage s)
    | .err msg => staleFallback cache msg

/-- The `error.message` the catch branch observes for each failing outcome
(`none` for a successful render, which never reaches the catch). -/
def renderFailureMessage : RenderOutcome → Option String
  | .ok _ => none
  | .badStatus s => some (badStatusMessage s)
  | .err m => some m

/-- A concrete qualifying table row used as a test input: seven cells, an
airline logo in cell 0, and a raw time range with two matches in cell 4. -/
def sampleRow : Row :=
  ⟨[⟨"", [⟨some "img/indigo_logo.png"⟩]⟩, ⟨"6E 123", []⟩, ⟨"Delhi", []⟩,
    ⟨"", []⟩, ⟨"10:00 10:20", []⟩, ⟨"A1", []⟩, ⟨"On Time", []⟩]⟩

/-- A single-row document built from `sampleRow`. -/
def sampleDoc : Document := ⟨[sampleRow]⟩

/-- The record `sampleRow` parses to. -/
def sampleRecord : FlightRecord :=
  ⟨some "img/indigo_logo.png", "indigo", "6E 123", "Delhi", "10:00", "10:20",
    some 20, "A1", "On Time"⟩

/-- A concrete row with seven cells but no embedded image anywhere. -/
def bareRow : Row :=
  ⟨[⟨"", []⟩, ⟨"", []⟩, ⟨"Delhi", []⟩, ⟨"", []⟩, ⟨"", []⟩, ⟨"", []⟩, ⟨"", []⟩]⟩

/-! Supporting lemmas. -/

theorem calculateDelayMinutes_self (s : String) : calculateDelayMinutes s s = some 0 := by
  simp [calculateDelayMinutes]

theorem getAirlineNameFromUrl_ne_empty (u : Option String) :
    getAirlineNameFromUrl u ≠ "" := by
  cases u with
  | none => decide
  | some s =>
    simp only [getAirlineNameFromUrl]
    split
    · decide
    · split
      · decide
      · assumption

theorem digit_ne_colon (c : Char) (h : c.isDigit = true) : c ≠ ':' := by
  intro he
  subst he
  exact absurd h (by decide)

theorem splitOnChar_clock5 (a b d e : Char) (ha : a ≠ ':') (hb : b ≠ ':')
    (hd : d ≠ ':') (he : e ≠ ':') :
    splitOnChar ':' [a, b, ':', d, e] = [[a, b], [d, e]] := by
  simp [splitOnChar, ha, hb, hd, he]

theorem splitOnChar_clock4 (a d e : Char) (ha : a ≠ ':') (hd : d ≠ ':') (he : e ≠ ':') :
    splitOnChar ':' [a, ':', d, e] = [[a], [d, e]] := by
  simp [splitOnChar, ha, hd, he]

theorem digitsToNat?_isSome (cs : List Char) (hne : cs ≠ [])
    (hall : cs.all Char.isDigit = true) : ∃ n : Nat, digitsToNat? cs = some n := by
  refine ⟨cs.foldl (fun n c => n * 10 + (c.toNat - 48)) 0, ?_⟩
  simp [digitsToNat?, hne, hall]

theorem timeToMinutes?_clock5 (a b d e : Char) (ha : a.isDigit = true)
    (hb : b.isDigit = true) (hd : d.isDigit = true) (he : e.isDigit = true) :
    ∃ k : Int, timeToMinutes? ⟨[a, b, ':', d, e]⟩ = some k ∧ 0 ≤ k := by
  obtain ⟨n1, hn1⟩ := digitsToNat?_isSome [a, b] (by simp) (by simp [ha, hb])
  obtain ⟨n2, hn2⟩ := digitsToNat?_isSome [d, e] (by simp) (by simp [hd, he])
  refine ⟨(n1 : Int) * 60 + (n2 : Int), ?_, by positivity⟩
  simp only [timeToMinutes?,
    splitOnChar_clock5 a b d e (digit_ne_colon a ha) (digit_ne_colon b hb)
      (digit_ne_colon d hd) (digit_ne_colon e he), hn1, hn2]

theorem timeToMinutes?_clock4 (a d e : Char) (ha : a.isDigit = true)
    (hd : d.isDigit = true) (he : e.isDigit = true) :
    ∃ k : Int, timeToMinutes? ⟨[a, ':', d, e]⟩ = some k ∧ 0 ≤ k := by
  obtain ⟨n1, hn1⟩ := digitsToNat?_isSome [a] (by simp) (by simp [ha])
  obtain ⟨n2, hn2⟩ := digitsToNat?_isSome [d, e] (by simp) (by simp [hd, he])
  refine ⟨(n1 : Int) * 60 + (n2 : Int), ?_, by positivity⟩
  simp only [timeToMinutes?,
    splitOnChar_clock4 a d e (digit_ne_colon a ha) (digit_ne_colon d hd)
      (digit_ne_colon e he), hn1, hn2]

theorem matchClockAt_parses (cs m rest : List Char)
    (h : matchClockAt cs = some (m, rest)) :
    ∃ k : Int, timeToMinutes? ⟨m⟩ = some k ∧ 0 ≤ k := by
  rcases cs with _ | ⟨a, _ | ⟨b, _ | ⟨c, _ | ⟨d, _ | ⟨e, rest'⟩⟩⟩⟩⟩
  · simp [matchClockAt] at h
  · simp [matchClockAt] at h
  · simp [matchClockAt] at h
  · simp [matchClockAt] at h
  · rw [matchClockAt] at h
    split at h
    · rename_i hcond
      obtain ⟨⟨⟨ha, hb⟩, hc, hd⟩, -⟩ :
          ((a.isDigit = true ∧ b = ':') ∧ c.isDigit = true ∧ d.isDigit = true) ∧ True := by
        constructor
        · simp only [Bool.and_eq_true, decide_eq_true_eq] at hcond
          exact ⟨⟨hcond.1.1.1, hcond.1.1.2⟩, hcond.1.2, hcond.2⟩
        · trivial
      obtain ⟨hm, -⟩ := Prod.mk.injEq .. ▸ Option.some.inj h
      subst hb
      rw [← hm]
      exact timeToMinutes?_clock4 a c d ha hc hd
    · simp at h
  · rw [matchClockAt] at h
    split at h
    · rename_i hcond
      simp only [Bool.and_eq_true, decide_eq_true_eq] at hcond
      obtain ⟨⟨⟨⟨ha, hb⟩, hc⟩, hd⟩, he⟩ := hcond
      obtain ⟨hm, -⟩ := Prod.mk.injEq .. ▸ Option.some.inj h
      subst hc
      rw [← hm]
      exact timeToMinutes?_clock5 a b d e ha hb hd he
    · split at h
      · rename_i hcond
        simp only [Bool.and_eq_true, decide_eq_true_eq] at hcond
        obtain ⟨⟨⟨ha, hb⟩, hc⟩, hd⟩ := hcond
        obtain ⟨hm, -⟩ := Prod.mk.injEq .. ▸ Option.some.inj h
        subst hb
        rw [← hm]
        exact timeToMinutes?_clock4 a c d ha hc hd
      · simp at h

theorem scanClocksAux_mem (fuel : Nat) :
    ∀ (cs : List Char) (m : String), m ∈ scanClocksAux fuel cs →
      ∃ ms rest cs', matchClockAt cs' = some (ms, rest) ∧ m = ⟨ms⟩ := by
  induction fuel with
  | zero =>
    intro cs m hm
    cases cs <;> simp [scanClocksAux] at hm
  | succ fuel ih =>
    intro cs m hm
    cases cs with
    | nil => simp [scanClocksAux] at hm
    | cons c rest =>
      cases hmc : matchClockAt (c :: rest) with
      | some pr =>
        obtain ⟨ms, rest'⟩ := pr
        rw [scanClocksAux, hmc] at hm
        rcases List.mem_cons.mp hm with hhead | htail
        · exact ⟨ms, rest', c :: rest, hmc, hhead⟩
        · exact ih rest' m htail
      | none =>
        rw [scanClocksAux, hmc] at hm
        exact ih rest m hm

theorem scanClocks_parses (cs : List Char) (m : String) (hm : m ∈ scanClocks cs) :
    ∃ k : Int, timeToMinutes? m = some k ∧ 0 ≤ k := by
  obtain ⟨ms, rest, cs', hmc, hme⟩ := scanClocksAux_mem cs.length cs m hm
  subst hme
  exact matchClockAt_parses cs' ms rest hmc

theorem parseTimeAndDelay_delay (s : String) :
    ∃ k : Int, (parseTimeAndDelay s).delayMins = some k ∧ 0 ≤ k := by
  rcases hscan : scanClocks s.data with _ | ⟨t1, _ | ⟨t2, rest⟩⟩
  · exact ⟨0, by simp [parseTimeAndDelay, hscan], le_refl 0⟩
  · exact ⟨0, by simp [parseTimeAndDelay, hscan, calculateDelayMinutes_self], le_refl 0⟩
  · have h1 : t1 ∈ scanClocks s.data := by rw [hscan]; exact List.mem_cons_self _ _
    have h2 : t2 ∈ scanClocks s.data := by rw [hscan]; simp
    obtain ⟨a, hpa, -⟩ := scanClocks_parses s.data t1 h1
    obtain ⟨b, hpb, -⟩ := scanClocks_parses s.data t2 h2
    by_cases heq : t1 = t2
    · exact ⟨0, by simp [parseTimeAndDelay, hscan, heq, calculateDelayMinutes_self],
        le_refl 0⟩
    · refine ⟨max 0 ((if b < a - 12 * 60 then b + 24 * 60 else b) - a), ?_,
        le_max_left _ _⟩
      simp [parseTimeAndDelay, hscan, calculateDelayMinutes, heq, hpa, hpb]

theorem parseTimeAndDelay_noMatch (s : String) (h : scanClocks s.data = []) :
    parseTimeAndDelay s = ⟨"--:--", "--:--", some 0⟩ := by
  simp [parseTimeAndDelay, h]

theorem filterMap_split {α β : Type} (f : α → Option β) (p : α → Bool) (g : α → β)
    (h : ∀ a, f a = if p a then some (g a) else none) :
    ∀ l : List α, l.filterMap f = (l.filter p).map g := by
  intro l
  induction l with
  | nil => rfl
  | cons a t ih =>
    by_cases hp : p a = true
    · simp [List.filterMap_cons, List.filter_cons, h a, hp, ih]
    · simp [List.filterMap_cons, List.filter_cons, h a, hp, ih]

theorem rowToRecord?_eq (row : Row) :
    rowToRecord? row =
      if (decide (7 ≤ row.cells.length) &&
          !appearsIn "origin".data
            (lowerStr (trimStr (row.cells.getD 2 cellDefault).text)).data) = true
      then some
        { airlineImg := ((row.cells.getD 0 cellDefault).imgs.head?).bind Img.src
          airlineName :=
            getAirlineNameFromUrl (((row.cells.getD 0 cellDefault).imgs.head?).bind Img.src)
          flightNo := trimStr (row.cells.getD 1 cellDefault).text
          dest := trimStr (row.cells.getD 2 cellDefault).text
          std := (parseTimeAndDelay (trimStr (row.cells.getD 4 cellDefault).text)).std
          etd := (parseTimeAndDelay (trimStr (row.cells.getD 4 cellDefault).text)).etd
          delayMins :=
            (parseTimeAndDelay (trimStr (row.cells.getD 4 cellDefault).text)).delayMins
          gate := trimStr (row.cells.getD 5 cellDefault).text
          status := trimStr (row.cells.getD 6 cellDefault).text }
      else none := by
  simp only [rowToRecord?]
  by_cases h7 : row.cells.length < 7
  · rw [if_pos h7]
    have hd : decide (7 ≤ row.cells.length) = false := by
      simp only [decide_eq_false_iff_not]
      omega
    rw [hd]
    simp
  · rw [if_neg h7]
    have hd : decide (7 ≤ row.cells.length) = true := by
      simp only [decide_eq_true_eq]
      omega
    rw [hd]
    cases ho : appearsIn "origin".data
        (lowerStr (trimStr (row.cells.getD 2 cellDefault).text)).data with
    | true => simp
    | false => simp

/-- C2: `calculateDelayMinutes` short-circuits equal inputs to 0; otherwise it
converts both `HH:MM` strings to minutes-since-midnight, adds 24 hours to the
estimated value when it is earlier than the scheduled one by more than 12
hours, and clamps the difference at zero; for same-day minutes `a ≤ b` the
delay is exactly `b - a`; and scheduled `23:50` with estimated `00:10` gives
exactly 20 minutes. -/
theorem C2_calculateDelayMinutes :
    (∀ s : String, calculateDelayMinutes s s = some 0) ∧
    (∀ (std etd : String) (a b : Int), std ≠ etd →
      timeToMinutes? std = some a → timeToMinutes? etd = some b →
      calculateDelayMinutes std etd =
        some (max 0 ((if b < a - 12 * 60 then b + 24 * 60 else b) - a))) ∧
    (∀ (std etd : String) (a b : Int),
      timeToMinutes? std = some a → timeToMinutes? etd = some b → a ≤ b →
      calculateDelayMinutes std etd = some (b - a)) ∧
    calculateDelayMinutes "23:50" "00:10" = some 20 := by
  refine ⟨calculateDelayMinutes_self, ?_, ?_, by decide⟩
  · intro std etd a b hne ha hb
    simp [calculateDelayMinutes, hne, ha, hb]
  · intro std etd a b ha hb hab
    by_cases hne : std = etd
    · subst hne
      rw [ha] at hb
      have : a = b := by exact Option.some.inj hb
      subst this
      simpa using calculateDelayMinutes_self std
    · have hlt : ¬ b < a - 12 * 60 := by omega
      simp only [calculateDelayMinutes, hne, if_false, ha, hb, hlt]
      have : max 0 (b - a) = b - a := by omega
      simp [this]

/-- C2 witness: a concrete same-day pair, 10:00 scheduled and 10:30
estimated, has delay 30. -/
theorem C2_calculateDelayMinutes_witness :
    calculateDelayMinutes "10:00" "10:30" = some 30 := by
  have h := C2_calculateDelayMinutes.2.2.1 "10:00" "10:30" 600 630
    (by decide) (by decide) (by decide)
  exact h.trans (by decide)

/-- C3: `parseTimeAndDelay` scans the raw text for all matches of the
1-2-digit-hour colon 2-digit-minute pattern in order of appearance; zero
matches give the sentinel pair with delay 0, one match is used for both times
with delay 0, and with two or more matches the first two become scheduled and
estimated while later matches are ignored. -/
theorem C3_parseTimeAndDelay (rawText : String) :
    (scanClocks rawText.data = [] →
      parseTimeAndDelay rawText = ⟨"--:--", "--:--", some 0⟩) ∧
    (∀ m, scanClocks rawText.data = [m] →
      parseTimeAndDelay rawText = ⟨m, m, some 0⟩) ∧
    (∀ m1 m2 rest, scanClocks rawText.data = m1 :: m2 :: rest →
      parseTimeAndDelay rawText = ⟨m1, m2, calculateDelayMinutes m1 m2⟩) := by
  refine ⟨fun h => ?_, fun m h => ?_, fun m1 m2 rest h => ?_⟩
  · simp [parseTimeAndDelay, h]
  · simp [parseTimeAndDelay, h, calculateDelayMinutes_self]
  · simp [parseTimeAndDelay, h]

/-- C3 witness: concrete zero-, one- and two-match inputs. -/
theorem C3_parseTimeAndDelay_witness :
    parseTimeAndDelay "Estimated" = ⟨"--:--", "--:--", some 0⟩ ∧
    parseTimeAndDelay "dep 9:05" = ⟨"9:05", "9:05", some 0⟩ ∧
    parseTimeAndDelay "10:00 / 10:30 / 11:00" =
      ⟨"10:00", "10:30", calculateDelayMinutes "10:00" "10:30"⟩ :=
  ⟨(C3_parseTimeAndDelay "Estimated").1 (by decide),
   (C3_parseTimeAndDelay "dep 9:05").2.1 "9:05" (by decide),
   (C3_parseTimeAndDelay "10:00 / 10:30 / 11:00").2.2 "10:00" "10:30" ["11:00"]
     (by decide)⟩

/-- C4: `getAirlineNameFromUrl` returns the sentinel `"Other"` on absent or
empty input; otherwise it takes the final `/` segment, cuts it at the first
`.`, takes the piece before the first `_`, replaces hyphens with spaces, and
falls back to the sentinel when the result is empty; in particular the
indigo and air-india logo paths resolve as the spec's examples state. -/
theorem C4_getAirlineNameFromUrl :
    (getAirlineNameFromUrl none = "Other" ∧ getAirlineNameFromUrl (some "") = "Other") ∧
    (∀ u : String, u ≠ "" →
      getAirlineNameFromUrl (some u) =
        (let name : String :=
          ⟨((splitOnChar '_'
              ((splitOnChar '.' ((splitOnChar '/' u.data).getLastD [])).headD [])).headD []).map
            fun c => if c = '-' then ' ' else c⟩
        if name = "" then "Other" else name)) ∧
    getAirlineNameFromUrl (some "https://hyd.aero/img/indigo_logo.png") = "indigo" ∧
    getAirlineNameFromUrl (some "https://hyd.aero/img/air-india_logo.png") = "air india" := by
  refine ⟨⟨by decide, by decide⟩, ?_, by decide, by decide⟩
  intro u hu
  simp [getAirlineNameFromUrl, hu]

/-- C4 witness: a concrete hyphen-and-underscore logo path resolves through
the pipeline. -/
theorem C4_getAirlineNameFromUrl_witness :
    getAirlineNameFromUrl (some "cdn/y-z_1.png") = "y z" := by
  have h := C4_getAirlineNameFromUrl.2.1 "cdn/y-z_1.png" (by decide)
  exact h.trans (by decide)

/-- C6: the freshness guard is true exactly when records are present and the
cache age is below the window, and after `set(records, t)` the cache is fresh
at `t + windowMs - 1` and no longer fresh at `t + windowMs + 1`. -/
theorem C6_cacheFreshness :
    (∀ (c : Cache) (now w : Int),
      cacheServable c now w = true ↔ c.data.isSome = true ∧ now - c.lastFetch < w) ∧
    (∀ (records : List FlightRecord) (t w : Int),
      cacheServable (cacheSet records t) (t + w - 1) w = true ∧
      cacheServable (cacheSet records t) (t + w + 1) w = false) := by
  constructor
  · intro c now w
    simp [cacheServable, isCacheFreshTime]
  · intro records t w
    constructor
    · simp only [cacheServable, cacheSet, isCacheFreshTime, Option.isSome_some,
        Bool.true_and, decide_eq_true_eq]
      omega
    · simp only [cacheServable, cacheSet, isCacheFreshTime, Option.isSome_some,
        Bool.true_and, decide_eq_false_iff_not]
      omega

/-- C9: when the cache is servable (records present, age below the window)
the handler returns the cached sequence, does not invoke the renderer, and
leaves the cache entry and its timestamp unchanged. -/
theorem C9_freshServesCache (c : Cache) (now : Int) (out : RenderOutcome)
    (d : List FlightRecord) (hd : c.data = some d)
    (hf : isCacheFreshTime c now CACHE_DURATION = true) :
    (getDepartures c now out).response = .ok d ∧
    (getDepartures c now out).cache = c ∧
    (getDepartures c now out).rendererInvoked = false := by
  have hs : cacheServable c now CACHE_DURATION = true := by
    simp [cacheServable, hd, hf]
  simp [getDepartures, hs, hd]

/-- C9 witness: a request at time 1 against a cache refreshed with `[]` at
time 0 is served from cache with the renderer untouched. -/
theorem C9_freshServesCache_witness :
    (getDepartures ⟨some [], 0⟩ 1 (.err "down")).response = .ok [] ∧
    (getDepartures ⟨some [], 0⟩ 1 (.err "down")).cache = ⟨some [], 0⟩ ∧
    (getDepartures ⟨some [], 0⟩ 1 (.err "down")).rendererInvoked = false :=
  C9_freshServesCache ⟨some [], 0⟩ 1 (.err "down") [] rfl (by decide)

/-- C1: when the cache is not servable and the renderer fails (render or
navigation error, or non-success status), the handler returns the cached
records when any are present — regardless of freshness — and otherwise
responds with the upstream error carrying the underlying failure reason;
moreover the error response can only ever occur with an empty cache. -/
theorem C1_staleFallback :
    (∀ (c : Cache) (now : Int) (out : RenderOutcome) (msg : String),
      cacheServable c now CACHE_DURATION = false →
      renderFailureMessage out = some msg →
      (∀ R, c.data = some R → (getDepartures c now out).response = .ok R) ∧
      (c.data = none →
        (getDepartures c now out).response =
          .error ⟨"Failed to fetch flight data", msg⟩)) ∧
    (∀ (c : Cache) (now : Int) (out : RenderOutcome) (e : UpstreamError),
      (getDepartures c now out).response = .error e → c.data = none) := by
  constructor
  · intro c now out msg hstale hmsg
    cases out with
    | ok doc => simp [renderFailureMessage] at hmsg
    | badStatus s =>
      have hmsg' : msg = badStatusMessage s := by
        simpa [renderFailureMessage] using hmsg.symm
      subst hmsg'
      constructor
      · intro R hR
        simp [getDepartures, hstale, staleFallback, hR]
      · intro hnone
        simp [getDepartures, hstale, staleFallback, hnone]
    | err m =>
      have hmsg' : msg = m := by
        simpa [renderFailureMessage] using hmsg.symm
      subst hmsg'
      constructor
      · intro R hR
        simp [getDepartures, hstale, staleFallback, hR]
      · intro hnone
        simp [getDepartures, hstale, staleFallback, hnone]
  · intro c now out e herr
    by_cases hs : cacheServable c now CACHE_DURATION = true
    · simp [getDepartures, hs] at herr
    · have hs' : cacheServable c now CACHE_DURATION = false := by
        simpa using hs
      cases out with
      | ok doc => simp [getDepartures, hs'] at herr
      | badStatus s =>
        cases hd : c.data with
        | none => rfl
        | some R => simp [getDepartures, hs', staleFallback, hd] at herr
      | err m =>
        cases hd : c.data with
        | none => rfl
        | some R => simp [getDepartures, hs', staleFallback, hd] at herr

/-- C1 witness: with a stale non-empty cache and a failing renderer the stale
records are served, and with an empty cache the same failure surfaces as the
upstream error. -/
theorem C1_staleFallback_witness :
    (getDepartures ⟨some [], 0⟩ (CACHE_DURATION + 1) (.err "boom")).response = .ok [] ∧
    (getDepartures ⟨none, 0⟩ (CACHE_DURATION + 1) (.err "boom")).response =
      .error ⟨"Failed to fetch flight data", "boom"⟩ :=
  ⟨(C1_staleFallback.1 ⟨some [], 0⟩ (CACHE_DURATION + 1) (.err "boom") "boom"
      (by decide) rfl).1 [] rfl,
   (C1_staleFallback.1 ⟨none, 0⟩ (CACHE_DURATION + 1) (.err "boom") "boom"
      (by decide) rfl).2 rfl⟩

/-- C10: a successful refresh that parses zero flights stores the empty
sequence with the refresh timestamp and serves it; that entry counts as fresh
within the window, is served as the stale fallback on a later renderer
failure, and an upstream error response requires an empty (never-refreshed)
cache, which no request can recreate from a populated one. -/
theorem C10_emptySequenceIsCached :
    (∀ (c : Cache) (now : Int) (doc : Document),
      cacheServable c now CACHE_DURATION = false → parseFlights doc = [] →
      (getDepartures c now (.ok doc)).response = .ok [] ∧
      (getDepartures c now (.ok doc)).cache = cacheSet [] now) ∧
    (∀ (now d : Int), d < CACHE_DURATION →
      cacheServable (cacheSet [] now) (now + d) CACHE_DURATION = true) ∧
    (∀ (t now : Int) (out : RenderOutcome) (msg : String),
      renderFailureMessage out = some msg →
      cacheServable (cacheSet [] t) now CACHE_DURATION = false →
      (getDepartures (cacheSet [] t) now out).response = .ok []) ∧
    (∀ (c : Cache) (now : Int) (out : RenderOutcome),
      (getDepartures c now out).cache.data = none → c.data = none) ∧
    (∀ (c : Cache) (now : Int) (out : RenderOutcome) (e : UpstreamError),
      (getDepartures c now out).response = .error e → c.data = none) := by
  refine ⟨?_, ?_, ?_, ?_, C1_staleFallback.2⟩
  · intro c now doc hstale hempty
    simp [getDepartures, hstale, hempty, cacheSet]
  · intro now d hd
    simp only [cacheServable, cacheSet, isCacheFreshTime, Option.isSome_some,
      Bool.true_and, decide_eq_true_eq]
    omega
  · intro t now out msg hmsg hstale
    cases out with
    | ok doc => simp [renderFailureMessage] at hmsg
    | badStatus s =>
      simp only [getDepartures, staleFallback, cacheSet]
      split <;> rfl
    | err m =>
      simp only [getDepartures, staleFallback, cacheSet]
      split <;> rfl
  · intro c now out hnone
    by_cases hs : cacheServable c now CACHE_DURATION = true
    · simpa [getDepartures, hs] using hnone
    · have hs' : cacheServable c now CACHE_DURATION = false := by simpa using hs
      cases out with
      | ok doc => simp [getDepartures, hs', cacheSet] at hnone
      | badStatus s =>
        cases hd : c.data with
        | none => rfl
        | some R => simp [getDepartures, hs', staleFallback, hd] at hnone
      | err m =>
        cases hd : c.data with
        | none => rfl
        | some R => simp [getDepartures, hs', staleFallback, hd] at hnone

/-- C10 witness: refreshing an empty cache from a page with no rows caches
`[]`, that entry is fresh one millisecond later, and a renderer failure after
the window still serves `[]`. -/
theorem C10_emptySequenceIsCached_witness :
    ((getDepartures ⟨none, 0⟩ 5 (.ok ⟨[]⟩)).response = .ok [] ∧
      (getDepartures ⟨none, 0⟩ 5 (.ok ⟨[]⟩)).cache = cacheSet [] 5) ∧
    cacheServable (cacheSet [] 5) (5 + 1) CACHE_DURATION = true ∧
    (getDepartures (cacheSet [] 5) (CACHE_DURATION + 6) (.err "down")).response = .ok [] :=
  ⟨C10_emptySequenceIsCached.1 ⟨none, 0⟩ 5 ⟨[]⟩ (by decide) rfl,
   C10_emptySequenceIsCached.2.1 5 1 (by decide),
   C10_emptySequenceIsCached.2.2.1 5 (CACHE_DURATION + 6) (.err "down") "down"
     rfl (by decide)⟩

/-- C5: `parseFlights` produces exactly the records of the rows, in document
order with no sorting and no de-duplication, that have at least 7 cells and
whose destination cell's lower-cased trimmed text does not contain "origin";
fields are taken positionally from cells 0 (embedded image source), 1, 2, 4,
5 and 6, with cell 3 unused. -/
theorem C5_parseFlightsRows (doc : Document) :
    parseFlights doc =
      (doc.rows.filter fun row =>
        decide (7 ≤ row.cells.length) &&
          !appearsIn "origin".data
            (lowerStr (trimStr (row.cells.getD 2 cellDefault).text)).data).map
        fun row =>
          { airlineImg := ((row.cells.getD 0 cellDefault).imgs.head?).bind Img.src
            airlineName :=
              getAirlineNameFromUrl
                (((row.cells.getD 0 cellDefault).imgs.head?).bind Img.src)
            flightNo := trimStr (row.cells.getD 1 cellDefault).text
            dest := trimStr (row.cells.getD 2 cellDefault).text
            std := (parseTimeAndDelay (trimStr (row.cells.getD 4 cellDefault).text)).std
            etd := (parseTimeAndDelay (trimStr (row.cells.getD 4 cellDefault).text)).etd
            delayMins :=
              (parseTimeAndDelay (trimStr (row.cells.getD 4 cellDefault).text)).delayMins
            gate := trimStr (row.cells.getD 5 cellDefault).text
            status := trimStr (row.cells.getD 6 cellDefault).text } := by
  rw [parseFlights]
  exact filterMap_split _ _ _ rowToRecord?_eq doc.rows

/-- C7: every record produced by `parseFlights` has a non-negative delay (and
never the modelled `NaN`), a non-empty airline name, and comes from a row
whose raw time text, when it yields no time match, forces both times to the
sentinel and the delay to zero. -/
theorem C7_recordInvariants (doc : Document) (r : FlightRecord)
    (hr : r ∈ parseFlights doc) :
    (∃ k : Int, r.delayMins = some k ∧ 0 ≤ k) ∧
    r.airlineName ≠ "" ∧
    ∃ row, row ∈ doc.rows ∧ rowToRecord? row = some r ∧
      (scanClocks (trimStr (row.cells.getD 4 cellDefault).text).data = [] →
        r.std = "--:--" ∧ r.etd = "--:--" ∧ r.delayMins = some 0) := by
  obtain ⟨row, hrow, hsome⟩ := List.mem_filterMap.mp hr
  have hre := rowToRecord?_eq row
  rw [hsome] at hre
  by_cases hc : (decide (7 ≤ row.cells.length) &&
      !appearsIn "origin".data
        (lowerStr (trimStr (row.cells.getD 2 cellDefault).text)).data) = true
  · rw [if_pos hc] at hre
    have hrec := Option.some.inj hre
    refine ⟨?_, ?_, row, hrow, hsome, ?_⟩
    · rw [hrec]
      exact parseTimeAndDelay_delay _
    · rw [hrec]
      exact getAirlineNameFromUrl_ne_empty _
    · intro hscan
      have hp := parseTimeAndDelay_noMatch _ hscan
      simp only [hrec, hp]
      exact ⟨trivial, trivial, trivial⟩
  · rw [if_neg hc] at hre
    exact absurd hre (by simp)

/-- C7 witness: the record parsed from `sampleRow` has a non-negative delay
and a non-empty airline name. -/
theorem C7_recordInvariants_witness :
    (∃ k : Int, sampleRecord.delayMins = some k ∧ 0 ≤ k) ∧
    sampleRecord.airlineName ≠ "" := by
  have h := C7_recordInvariants sampleDoc sampleRecord (by decide)
  exact ⟨h.1, h.2.1⟩

/-- C8: `parseFlights` is total at its interface: a row with fewer than 7
cells is excluded entirely, a document all of whose rows are excluded yields
the empty sequence rather than an error, and a qualifying row with no
embedded image still yields a record whose image reference is absent and
whose airline name is the fallback sentinel. -/
theorem C8_parseFlightsTotal :
    (∀ row : Row, row.cells.length < 7 → rowToRecord? row = none) ∧
    (∀ doc : Document, (∀ row ∈ doc.rows, rowToRecord? row = none) →
      parseFlights doc = []) ∧
    (∀ row : Row, 7 ≤ row.cells.length →
      appearsIn "origin".data
        (lowerStr (trimStr (row.cells.getD 2 cellDefault).text)).data = false →
      ((row.cells.getD 0 cellDefault).imgs.head?).bind Img.src = none →
      ∃ r : FlightRecord, rowToRecord? row = some r ∧
        r.airlineImg = none ∧ r.airlineName = "Other") := by
  refine ⟨?_, ?_, ?_⟩
  · intro row h7
    simp [rowToRecord?, h7]
  · intro doc hall
    rw [parseFlights, List.filterMap_eq_nil_iff]
    exact hall
  · intro row h7 ho himg
    have h7' : ¬ row.cells.length < 7 := by omega
    have hrec := rowToRecord?_eq row
    have hcond : (decide (7 ≤ row.cells.length) &&
        !appearsIn "origin".data
          (lowerStr (trimStr (row.cells.getD 2 cellDefault).text)).data) = true := by
      rw [ho]
      simp [h7]
    rw [if_pos hcond] at hrec
    refine ⟨_, hrec, ?_, ?_⟩
    · simpa using himg
    · simp only []
      rw [himg]
      rfl

/-- C8 witness: a two-cell row is excluded, a document of only such rows
parses to the empty list, and `bareRow` (seven cells, no image) yields a
record with absent image reference and the sentinel airline name. -/
theorem C8_parseFlightsTotal_witness :
    rowToRecord? ⟨[⟨"x", []⟩, ⟨"y", []⟩]⟩ = none ∧
    parseFlights ⟨[⟨[⟨"x", []⟩, ⟨"y", []⟩]⟩]⟩ = [] ∧
    ∃ r : FlightRecord, rowToRecord? bareRow = some r ∧
      r.airlineImg = none ∧ r.airlineName = "Other" :=
  ⟨C8_parseFlightsTotal.1 ⟨[⟨"x", []⟩, ⟨"y", []⟩]⟩ (by decide),
   C8_parseFlightsTotal.2.1 ⟨[⟨[⟨"x", []⟩, ⟨"y", []⟩]⟩]⟩ (by decide),
   C8_parseFlightsTotal.2.2 bareRow (by decide) (by decide) (by decide)⟩

end HydTracker
